import Mathlib

/-!
Verification of the geometry staging pipeline of libflipper
(`src/include/geometry/GXGeometryData.hpp`).

Only the header is available in the sources; the implementations of
`GXPrimitive::TriangulateTriangleStrip`, `GXPrimitive::TriangulateTriangleFan`,
`GXPrimitive::TriangluatePrimitive`, `GXShape::CalculateCenterOfMass`,
`GXGeometry::AddVertices` and `GXGeometry::CreateVertexArray` live in a
`.cpp` file that is not part of the sources.  Those operations are modelled
from the specification (marked `Modelled from the spec:` below).  The
operations whose bodies are in the header (`GXShape`'s default constructor,
`GXGeometry::CleanupVertexArray`) are translated directly from it.

Machine integers (`uint32_t` offsets and counts) are modelled as `Nat`;
vertex channel values (`glm` float vectors) are modelled as exact rational
3-vectors, matching the spec's demand for exact arithmetic (e.g. the
"exact arithmetic mean" of `CalculateCenterOfMass`).
-/

/-- A 3-component vector with exact rational components, modelling `glm::vec3`. -/
structure Vec3 where
  x : ℚ
  y : ℚ
  z : ℚ
deriving DecidableEq

/-- The zero vector. -/
def Vec3.zero : Vec3 := ⟨0, 0, 0⟩

/-- Modelled from the spec: the vertex-attribute enumeration
(`GXGeometryEnums.hpp` is not in the sources).  The spec names position and
the optional channels normal, color and texture coordinates. -/
inductive EGXAttribute where
  | Position
  | Normal
  | Color
  | TexCoord
deriving DecidableEq

/-- Modelled from the spec: the primitive-assembly type enumeration
(`GXGeometryEnums.hpp` is not in the sources).  The spec requires at least
`Triangles`, `TriangleStrip` and `TriangleFan`; the header uses
`EGXPrimitiveType::None`, and the spec says the source enumeration also
implies quads, lines and points. -/
inductive EGXPrimitiveType where
  | None
  | Triangles
  | TriangleStrip
  | TriangleFan
  | Quads
  | Lines
  | Points
deriving DecidableEq

/-- Modelled from the spec: a vertex (`ModernVertex`, from the missing
`GXVertexData.hpp`) is an opaque, structurally comparable record bundling a
position and optional channels (normal, color, texture coordinates). -/
structure ModernVertex where
  position : Vec3
  normal : Vec3
  color : Vec3
  texCoord : Vec3
deriving DecidableEq

/-- The value a vertex carries on a given attribute channel. -/
def ModernVertex.channel (v : ModernVertex) : EGXAttribute → Vec3
  | EGXAttribute.Position => v.position
  | EGXAttribute.Normal => v.normal
  | EGXAttribute.Color => v.color
  | EGXAttribute.TexCoord => v.texCoord

/-- A fixed default vertex (all channels zero), used as the `getD` default. -/
def defaultVertex : ModernVertex := ⟨Vec3.zero, Vec3.zero, Vec3.zero, Vec3.zero⟩

/-- Modelled from the spec: value equality of two vertices over a shape's
active attribute set — structural equality restricted to the channels named
by the attribute set. -/
def vertexEqOn (attrs : List EGXAttribute) (v w : ModernVertex) : Bool :=
  attrs.all fun a => decide (v.channel a = w.channel a)

theorem vertexEqOn_iff (attrs : List EGXAttribute) (v w : ModernVertex) :
    vertexEqOn attrs v w = true ↔ ∀ a ∈ attrs, v.channel a = w.channel a := by
  simp [vertexEqOn]

theorem vertexEqOn_comm (attrs : List EGXAttribute) (v w : ModernVertex) :
    vertexEqOn attrs v w = vertexEqOn attrs w v := by
  cases hvw : vertexEqOn attrs v w <;> cases hwv : vertexEqOn attrs w v <;> try rfl
  · exact absurd ((vertexEqOn_iff attrs v w).mpr
      fun a ha => ((vertexEqOn_iff attrs w v).mp hwv a ha).symm) (by simp [hvw])
  · exact absurd ((vertexEqOn_iff attrs w v).mpr
      fun a ha => ((vertexEqOn_iff attrs v w).mp hvw a ha).symm) (by simp [hwv])

/-- One triangle, as an ordered triple of vertices. -/
abbrev GXTriangle := ModernVertex × ModernVertex × ModernVertex

/-- A fixed default triangle, used as the `getD` default. -/
def defaultTriangle : GXTriangle := (defaultVertex, defaultVertex, defaultVertex)

/-- Flattens a triangle list into the corresponding vertex list
(three vertices per triangle, in order). -/
def flatTriangles : List GXTriangle → List ModernVertex
  | [] => []
  | (a, b, c) :: rest => a :: b :: c :: flatTriangles rest

theorem flatTriangles_length (ts : List GXTriangle) :
    (flatTriangles ts).length = 3 * ts.length := by
  induction ts with
  | nil => rfl
  | cons t rest ih =>
    obtain ⟨a, b, c⟩ := t
    simp [flatTriangles, ih]
    omega

/-- Modelled from the spec: the triangles a triangle strip expands to.
`stripTrianglesAux i vs` emits the triangles whose (0-based) triangle index
starts at `i`: for triangle index `i` over source vertices `i, i+1, i+2`,
emit `(v[i], v[i+1], v[i+2])` when `i` is even and `(v[i+1], v[i], v[i+2])`
when `i` is odd, preserving a single winding direction across the strip. -/
def stripTrianglesAux : Nat → List ModernVertex → List GXTriangle
  | i, a :: b :: c :: rest =>
    (if i % 2 = 0 then (a, b, c) else (b, a, c)) :: stripTrianglesAux (i + 1) (b :: c :: rest)
  | _, _ => []

/-- Modelled from the spec: the triangle list a triangle strip expands to. -/
def stripTriangles (vs : List ModernVertex) : List GXTriangle :=
  stripTrianglesAux 0 vs

/-- Modelled from the spec: the triangle list a triangle fan expands to.
`fanTrianglesAux hub vs` emits `(hub, vs[j], vs[j+1])` for each consecutive
pair of `vs`. -/
def fanTrianglesAux (hub : ModernVertex) : List ModernVertex → List GXTriangle
  | b :: c :: rest => (hub, b, c) :: fanTrianglesAux hub (c :: rest)
  | _ => []

/-- Modelled from the spec: a triangle fan emits `(v[0], v[i], v[i+1])` for
`i` from 1 to `n-2`, each triangle sharing the first vertex as hub. -/
def fanTriangles : List ModernVertex → List GXTriangle
  | hub :: rest => fanTrianglesAux hub rest
  | [] => []

theorem stripTrianglesAux_length (vs : List ModernVertex) :
    ∀ k, (stripTrianglesAux k vs).length = vs.length - 2 := by
  induction vs with
  | nil => intro k; rfl
  | cons a tail ih =>
    intro k
    match tail with
    | [] => rfl
    | [b] => rfl
    | b :: c :: rest =>
      simp only [stripTrianglesAux, List.length_cons]
      rw [ih (k + 1)]
      simp only [List.length_cons]
      omega

theorem stripTrianglesAux_getD (vs : List ModernVertex) :
    ∀ k i, i < vs.length - 2 →
      (stripTrianglesAux k vs).getD i defaultTriangle =
        (if (k + i) % 2 = 0 then
          (vs.getD i defaultVertex, vs.getD (i + 1) defaultVertex, vs.getD (i + 2) defaultVertex)
        else
          (vs.getD (i + 1) defaultVertex, vs.getD i defaultVertex,
            vs.getD (i + 2) defaultVertex)) := by
  induction vs with
  | nil => intro k i h; simp at h
  | cons a tail ih =>
    intro k i h
    match tail with
    | [] => simp at h
    | [b] => simp at h
    | b :: c :: rest =>
      match i with
      | 0 => simp [stripTrianglesAux, List.getD]
      | i' + 1 =>
        have hlt : i' < (b :: c :: rest).length - 2 := by
          simp at h ⊢; omega
        have heq := ih (k + 1) i' hlt
        have hk : k + 1 + i' = k + (i' + 1) := by omega
        rw [hk] at heq
        have hstep : (stripTrianglesAux k (a :: b :: c :: rest)).getD (i' + 1) defaultTriangle
            = (stripTrianglesAux (k + 1) (b :: c :: rest)).getD i' defaultTriangle := by
          simp [stripTrianglesAux]
        rw [hstep, heq]
        simp [List.getD_cons_succ]

theorem fanTrianglesAux_length (hub : ModernVertex) (vs : List ModernVertex) :
    (fanTrianglesAux hub vs).length = vs.length - 1 := by
  induction vs with
  | nil => rfl
  | cons b tail ih =>
    match tail with
    | [] => rfl
    | c :: rest =>
      simp only [fanTrianglesAux, List.length_cons]
      rw [ih]
      simp

theorem fanTrianglesAux_getD (hub : ModernVertex) (vs : List ModernVertex) :
    ∀ i, i < vs.length - 1 →
      (fanTrianglesAux hub vs).getD i defaultTriangle =
        (hub, vs.getD i defaultVertex, vs.getD (i + 1) defaultVertex) := by
  induction vs with
  | nil => intro i h; simp at h
  | cons b tail ih =>
    intro i h
    match tail with
    | [] => simp at h
    | c :: rest =>
      match i with
      | 0 => simp [fanTrianglesAux, List.getD]
      | i' + 1 =>
        have hlt : i' < (c :: rest).length - 1 := by simp at h ⊢; omega
        have := ih i' hlt
        simp only [fanTrianglesAux, List.getD_cons_succ]
        rw [this]
        simp [List.getD_cons_succ]

/-- A single primitive: a primitive-assembly type together with the ordered
vertex sequence making it up (`GXPrimitive` in the header). -/
structure GXPrimitive where
  mType : EGXPrimitiveType
  mVertices : List ModernVertex
deriving DecidableEq

/-- Modelled from the spec: `GXPrimitive::TriangulateTriangleStrip`
(implementation not in the sources) rewrites the vertices from triangle-strip
order into flattened triangle-list order. -/
def GXPrimitive.TriangulateTriangleStrip (p : GXPrimitive) : GXPrimitive :=
  { p with mVertices := flatTriangles (stripTriangles p.mVertices) }

/-- Modelled from the spec: `GXPrimitive::TriangulateTriangleFan`
(implementation not in the sources) rewrites the vertices from triangle-fan
order into flattened triangle-list order. -/
def GXPrimitive.TriangulateTriangleFan (p : GXPrimitive) : GXPrimitive :=
  { p with mVertices := flatTriangles (fanTriangles p.mVertices) }

/-- Modelled from the spec: `GXPrimitive::TriangluatePrimitive`
(implementation not in the sources; the header keeps the source's spelling)
rewrites `mVertices` into triangle-list form according to the current type,
then sets the type to `Triangles`.  `Triangles` is a no-op.  For the types
the spec gives no triangulation rule for (`None`, `Quads`, `Lines`,
`Points`) the spec leaves the behavior open and asks the implementer to
choose and document a policy; this model adopts the pass-through policy the
spec lists first: the vertices are left unchanged. -/
def GXPrimitive.TriangluatePrimitive (p : GXPrimitive) : GXPrimitive :=
  match p.mType with
  | EGXPrimitiveType.TriangleStrip =>
    { p.TriangulateTriangleStrip with mType := EGXPrimitiveType.Triangles }
  | EGXPrimitiveType.TriangleFan =>
    { p.TriangulateTriangleFan with mType := EGXPrimitiveType.Triangles }
  | _ => { p with mType := EGXPrimitiveType.Triangles }

/-- A shape: attribute table, owned primitives, local vertex list, baked
range bookkeeping, center of mass, visibility and the opaque user-data
attachment (`GXShape` in the header; `void* mUserData` is modelled as an
optional opaque attachment). -/
structure GXShape where
  mVertexAttributeTable : List EGXAttribute
  mPrimitives : List GXPrimitive
  mVertices : List ModernVertex
  mFirstVertexOffset : Nat
  mVertexCount : Nat
  mCenterOfMass : Vec3
  mbIsVisible : Bool
  mUserData : Option Unit
deriving DecidableEq

/-- The default-constructed shape, translated from the header's
`GXShape() : mFirstVertexOffset(0), mVertexCount(0), mCenterOfMass(),
mbIsVisible(true), mUserData(nullptr) {}` (the vector members are
default-constructed empty). -/
def defaultGXShape : GXShape :=
  { mVertexAttributeTable := []
    mPrimitives := []
    mVertices := []
    mFirstVertexOffset := 0
    mVertexCount := 0
    mCenterOfMass := Vec3.zero
    mbIsVisible := true
    mUserData := none }

/-- All vertices currently in a shape's primitives, in order. -/
def GXShape.allVertices (s : GXShape) : List ModernVertex :=
  (s.mPrimitives.map GXPrimitive.mVertices).flatten

/-- Modelled from the spec: `GXShape::CalculateCenterOfMass`
(implementation not in the sources) recomputes `mCenterOfMass` as the exact
arithmetic mean of the position components of every vertex currently in the
shape's primitives; for an empty shape the result is the zero vector (no
division by zero). -/
def GXShape.CalculateCenterOfMass (s : GXShape) : GXShape :=
  let ps := s.allVertices.map ModernVertex.position
  if ps.length = 0 then { s with mCenterOfMass := Vec3.zero }
  else
    { s with mCenterOfMass :=
        ⟨(ps.map Vec3.x).sum / (ps.length : ℚ),
         (ps.map Vec3.y).sum / (ps.length : ℚ),
         (ps.map Vec3.z).sum / (ps.length : ℚ)⟩ }

/-- Modelled from the spec: the downstream renderer collaborator skips
exactly the shapes whose `visible` flag is `false`. -/
def rendererSkips (s : GXShape) : Bool :=
  s.mbIsVisible = false

/-- Modelled from the spec: look up a vertex by full value-equality (over
the shape's active attribute set) among the previously assigned shape-local
vertices, returning its previously assigned local index if present. -/
def lookupLocal (attrs : List EGXAttribute) (v : ModernVertex) :
    List ModernVertex → Option Nat
  | [] => none
  | w :: rest =>
    if vertexEqOn attrs w v then some 0 else (lookupLocal attrs v rest).map (· + 1)

/-- Modelled from the spec: the shape-local deduplication pass of the bake.
`dedupAux attrs locals vs` iterates the triangulated vertices `vs` in order;
for each vertex it looks it up by value-equality over `attrs` in the
already-built local list; if absent it assigns the next local index and
appends the vertex; either way it appends the resolved local index.  It
returns the final local vertex list and the local index list for `vs`. -/
def dedupAux (attrs : List EGXAttribute) (locals : List ModernVertex) :
    List ModernVertex → List ModernVertex × List Nat
  | [] => (locals, [])
  | v :: rest =>
    match lookupLocal attrs v locals with
    | some i =>
      let r := dedupAux attrs locals rest
      (r.1, i :: r.2)
    | none =>
      let r := dedupAux attrs (locals ++ [v]) rest
      (r.1, locals.length :: r.2)

/-- Modelled from the spec: build a shape-local deduplicated vertex list and
the matching local index list from the shape's triangulated vertices. -/
def dedup (attrs : List EGXAttribute) (vs : List ModernVertex) :
    List ModernVertex × List Nat :=
  dedupAux attrs [] vs

/-- The triangulated vertex stream of a shape: every primitive triangulated,
their vertex lists concatenated in order. -/
def shapeTriVertices (s : GXShape) : List ModernVertex :=
  ((s.mPrimitives.map GXPrimitive.TriangluatePrimitive).map GXPrimitive.mVertices).flatten

/-- The model geometry: the shape list and the two global buffers
(`GXGeometry` in the header). -/
structure GXGeometry where
  mShapes : List GXShape
  mModelIndices : List Nat
  mModelVertices : List ModernVertex
deriving DecidableEq

/-- Modelled from the spec: `GXGeometry::AddVertices` (implementation not in
the sources) appends the given vertices to the global vertex buffer and
returns the pre-append length as the base offset of the appended block. -/
def GXGeometry.AddVertices (g : GXGeometry) (vs : List ModernVertex) :
    GXGeometry × Nat :=
  ({ g with mModelVertices := g.mModelVertices ++ vs }, g.mModelVertices.length)

/-- `GXGeometry::CleanupVertexArray`, translated from the header: clears the
two global buffers and clears every shape's primitive collection. -/
def GXGeometry.CleanupVertexArray (g : GXGeometry) : GXGeometry :=
  { g with
    mModelVertices := []
    mModelIndices := []
    mShapes := g.mShapes.map fun s => { s with mPrimitives := [] } }

/-- Modelled from the spec: one shape's step of the bake, against the global
buffers as they stand.  Triangulates every primitive of the shape, builds
the shape-local deduplicated vertex list and local index list, appends the
local vertices to the global vertex buffer at base offset `gv.length` (what
`AddVertices` returns), rebases the local indices by that base and appends
them to the global index buffer, and records the shape's
`firstIndexOffset`/`indexCount` pair.  The deduplicated local list is also
stored in the shape's own vertex list. -/
def bakeShape (gv : List ModernVertex) (gi : List Nat) (s : GXShape) :
    List ModernVertex × List Nat × GXShape :=
  let prims := s.mPrimitives.map GXPrimitive.TriangluatePrimitive
  let locals := (dedup s.mVertexAttributeTable (shapeTriVertices s)).1
  let lidxs := (dedup s.mVertexAttributeTable (shapeTriVertices s)).2
  (gv ++ locals,
   gi ++ lidxs.map (· + gv.length),
   { s with
      mPrimitives := prims
      mVertices := locals
      mFirstVertexOffset := gi.length
      mVertexCount := lidxs.length })

/-- Modelled from the spec: the bake loop over the shape list, threading the
two global buffers through and collecting the updated shapes in order. -/
def bakeAll : List GXShape → List ModernVertex → List Nat →
    List ModernVertex × List Nat × List GXShape
  | [], gv, gi => (gv, gi, [])
  | s :: rest, gv, gi =>
    let r1 := bakeShape gv gi s
    let r2 := bakeAll rest r1.1 r1.2.1
    (r2.1, r2.2.1, r1.2.2 :: r2.2.2)

/-- Modelled from the spec: `GXGeometry::CreateVertexArray` (implementation
not in the sources) runs the bake across all shapes in list order,
producing the updated shapes and global buffers. -/
def GXGeometry.CreateVertexArray (g : GXGeometry) : GXGeometry :=
  { mShapes := (bakeAll g.mShapes g.mModelVertices g.mModelIndices).2.2
    mModelIndices := (bakeAll g.mShapes g.mModelVertices g.mModelIndices).2.1
    mModelVertices := (bakeAll g.mShapes g.mModelVertices g.mModelIndices).1 }

theorem lookupLocal_lt (attrs : List EGXAttribute) (v : ModernVertex) :
    ∀ (l : List ModernVertex) (i : Nat), lookupLocal attrs v l = some i → i < l.length := by
  intro l
  induction l with
  | nil => intro i h; simp [lookupLocal] at h
  | cons w rest ih =>
    intro i h
    by_cases hw : vertexEqOn attrs w v
    · simp [lookupLocal, hw] at h
      subst h
      simp
    · simp [lookupLocal, hw] at h
      obtain ⟨i', hi', rfl⟩ := h
      have := ih i' hi'
      simp
      omega

theorem lookupLocal_none (attrs : List EGXAttribute) (v : ModernVertex) :
    ∀ (l : List ModernVertex), lookupLocal attrs v l = none →
      ∀ w ∈ l, vertexEqOn attrs w v = false := by
  intro l
  induction l with
  | nil => intro _ w hw; simp at hw
  | cons u rest ih =>
    intro h w hw
    by_cases hu : vertexEqOn attrs u v
    · simp [lookupLocal, hu] at h
    · simp [lookupLocal, hu] at h
      rcases List.mem_cons.mp hw with rfl | hwr
      · exact Bool.not_eq_true _ ▸ (by simpa using hu)
      · exact ih h w hwr

theorem dedupAux_snd_length (attrs : List EGXAttribute) :
    ∀ (vs locals : List ModernVertex), (dedupAux attrs locals vs).2.length = vs.length := by
  intro vs
  induction vs with
  | nil => intro locals; rfl
  | cons v rest ih =>
    intro locals
    cases hl : lookupLocal attrs v locals with
    | some i => simp [dedupAux, hl, ih]
    | none => simp [dedupAux, hl, ih]

theorem dedupAux_fst_extends (attrs : List EGXAttribute) :
    ∀ (vs locals : List ModernVertex), ∃ t, (dedupAux attrs locals vs).1 = locals ++ t := by
  intro vs
  induction vs with
  | nil => intro locals; exact ⟨[], by simp [dedupAux]⟩
  | cons v rest ih =>
    intro locals
    cases hl : lookupLocal attrs v locals with
    | some i =>
      obtain ⟨t, ht⟩ := ih locals
      exact ⟨t, by simp [dedupAux, hl, ht]⟩
    | none =>
      obtain ⟨t, ht⟩ := ih (locals ++ [v])
      exact ⟨[v] ++ t, by simp [dedupAux, hl, ht]⟩

theorem dedupAux_snd_lt (attrs : List EGXAttribute) :
    ∀ (vs locals : List ModernVertex) (x : Nat), x ∈ (dedupAux attrs locals vs).2 →
      x < (dedupAux attrs locals vs).1.length := by
  intro vs
  induction vs with
  | nil => intro locals x hx; simp [dedupAux] at hx
  | cons v rest ih =>
    intro locals x hx
    cases hl : lookupLocal attrs v locals with
    | some i =>
      simp [dedupAux, hl] at hx ⊢
      obtain ⟨t, ht⟩ := dedupAux_fst_extends attrs rest locals
      rcases hx with rfl | hx
      · have := lookupLocal_lt attrs v locals x hl
        rw [ht]
        simp
        omega
      · exact ih locals x hx
    | none =>
      simp [dedupAux, hl] at hx ⊢
      obtain ⟨t, ht⟩ := dedupAux_fst_extends attrs rest (locals ++ [v])
      rcases hx with rfl | hx
      · rw [ht]
        simp
      · exact ih (locals ++ [v]) x hx

theorem dedupAux_pairwise (attrs : List EGXAttribute) :
    ∀ (vs locals : List ModernVertex),
      (locals.Pairwise fun a b => vertexEqOn attrs a b = false) →
      ((dedupAux attrs locals vs).1.Pairwise fun a b => vertexEqOn attrs a b = false) := by
  intro vs
  induction vs with
  | nil => intro locals h; exact h
  | cons v rest ih =>
    intro locals h
    cases hl : lookupLocal attrs v locals with
    | some i => simpa [dedupAux, hl] using ih locals h
    | none =>
      have hnew : (locals ++ [v]).Pairwise fun a b => vertexEqOn attrs a b = false := by
        rw [List.pairwise_append]
        refine ⟨h, List.pairwise_singleton _ _, ?_⟩
        intro a ha b hb
        rcases List.mem_singleton.mp hb with rfl
        exact lookupLocal_none attrs b locals hl a ha
      simpa [dedupAux, hl] using ih (locals ++ [v]) hnew

theorem dedup_snd_length (attrs : List EGXAttribute) (vs : List ModernVertex) :
    (dedup attrs vs).2.length = vs.length :=
  dedupAux_snd_length attrs vs []

theorem dedup_snd_lt (attrs : List EGXAttribute) (vs : List ModernVertex) (x : Nat)
    (hx : x ∈ (dedup attrs vs).2) : x < (dedup attrs vs).1.length :=
  dedupAux_snd_lt attrs vs [] x hx

theorem dedup_pairwise (attrs : List EGXAttribute) (vs : List ModernVertex) :
    (dedup attrs vs).1.Pairwise fun a b => vertexEqOn attrs a b = false :=
  dedupAux_pairwise attrs vs [] (List.Pairwise.nil)

/-- The shape record produced for a source shape by its bake step, as a
function of the offset it is recorded at. -/
def bakedShapeOf (s : GXShape) (off : Nat) : GXShape :=
  { s with
      mPrimitives := s.mPrimitives.map GXPrimitive.TriangluatePrimitive
      mVertices := (dedup s.mVertexAttributeTable (shapeTriVertices s)).1
      mFirstVertexOffset := off
      mVertexCount := (dedup s.mVertexAttributeTable (shapeTriVertices s)).2.length }

theorem bakeShape_fst (gv : List ModernVertex) (gi : List Nat) (s : GXShape) :
    (bakeShape gv gi s).1 = gv ++ (dedup s.mVertexAttributeTable (shapeTriVertices s)).1 :=
  rfl

theorem bakeShape_snd_fst (gv : List ModernVertex) (gi : List Nat) (s : GXShape) :
    (bakeShape gv gi s).2.1 =
      gi ++ (dedup s.mVertexAttributeTable (shapeTriVertices s)).2.map (· + gv.length) := by
  simp [bakeShape, dedup_snd_length]

theorem bakeShape_snd_snd (gv : List ModernVertex) (gi : List Nat) (s : GXShape) :
    (bakeShape gv gi s).2.2 = bakedShapeOf s gi.length :=
  rfl

theorem bakeAll_cons (s : GXShape) (rest : List GXShape) (gv : List ModernVertex)
    (gi : List Nat) :
    bakeAll (s :: rest) gv gi =
      ((bakeAll rest (bakeShape gv gi s).1 (bakeShape gv gi s).2.1).1,
       (bakeAll rest (bakeShape gv gi s).1 (bakeShape gv gi s).2.1).2.1,
       (bakeShape gv gi s).2.2 ::
         (bakeAll rest (bakeShape gv gi s).1 (bakeShape gv gi s).2.1).2.2) :=
  rfl

theorem bakeAll_extends :
    ∀ (shapes : List GXShape) (gv : List ModernVertex) (gi : List Nat),
      ∃ tv ti, (bakeAll shapes gv gi).1 = gv ++ tv ∧ (bakeAll shapes gv gi).2.1 = gi ++ ti := by
  intro shapes
  induction shapes with
  | nil => intro gv gi; exact ⟨[], [], by simp [bakeAll], by simp [bakeAll]⟩
  | cons s rest ih =>
    intro gv gi
    obtain ⟨tv, ti, h1, h2⟩ := ih (bakeShape gv gi s).1 (bakeShape gv gi s).2.1
    rw [bakeAll_cons]
    refine ⟨(dedup s.mVertexAttributeTable (shapeTriVertices s)).1 ++ tv,
            (dedup s.mVertexAttributeTable (shapeTriVertices s)).2.map (· + gv.length) ++ ti,
            ?_, ?_⟩
    · rw [h1, bakeShape_fst, List.append_assoc]
    · rw [h2, bakeShape_snd_fst, List.append_assoc]

theorem bakeAll_out_length :
    ∀ (shapes : List GXShape) (gv : List ModernVertex) (gi : List Nat),
      (bakeAll shapes gv gi).2.2.length = shapes.length := by
  intro shapes
  induction shapes with
  | nil => intro gv gi; rfl
  | cons s rest ih =>
    intro gv gi
    rw [bakeAll_cons]
    simp [ih]

theorem bakeAll_bounds :
    ∀ (shapes : List GXShape) (gv : List ModernVertex) (gi : List Nat),
      ∀ s' ∈ (bakeAll shapes gv gi).2.2,
        gi.length ≤ s'.mFirstVertexOffset ∧
        s'.mFirstVertexOffset + s'.mVertexCount ≤ (bakeAll shapes gv gi).2.1.length := by
  intro shapes
  induction shapes with
  | nil => intro gv gi s' hs'; simp [bakeAll] at hs'
  | cons s rest ih =>
    intro gv gi s' hs'
    rw [bakeAll_cons] at hs' ⊢
    simp only [List.mem_cons] at hs'
    obtain ⟨tv, ti, _h1, h2⟩ := bakeAll_extends rest (bakeShape gv gi s).1 (bakeShape gv gi s).2.1
    rcases hs' with rfl | hs'
    · constructor
      · simp [bakeShape_snd_snd, bakedShapeOf]
      · rw [bakeShape_snd_snd, h2]
        simp [bakedShapeOf, bakeShape_snd_fst, dedup_snd_length]
    · have := ih (bakeShape gv gi s).1 (bakeShape gv gi s).2.1 s' hs'
      constructor
      · refine le_trans ?_ this.1
        rw [bakeShape_snd_fst]
        simp
      · exact this.2

theorem bakeAll_pairwise :
    ∀ (shapes : List GXShape) (gv : List ModernVertex) (gi : List Nat),
      ((bakeAll shapes gv gi).2.2).Pairwise
        (fun a b => a.mFirstVertexOffset + a.mVertexCount ≤ b.mFirstVertexOffset) := by
  intro shapes
  induction shapes with
  | nil => intro gv gi; simp [bakeAll]
  | cons s rest ih =>
    intro gv gi
    rw [bakeAll_cons]
    refine List.Pairwise.cons ?_ (ih _ _)
    intro b hb
    have hbd := (bakeAll_bounds rest (bakeShape gv gi s).1 (bakeShape gv gi s).2.1 b hb).1
    refine le_trans ?_ hbd
    rw [bakeShape_snd_snd, bakeShape_snd_fst]
    simp [bakedShapeOf, dedup_snd_length]

theorem bakeAll_mem_src :
    ∀ (shapes : List GXShape) (gv : List ModernVertex) (gi : List Nat),
      ∀ s' ∈ (bakeAll shapes gv gi).2.2, ∃ s ∈ shapes, ∃ off, s' = bakedShapeOf s off := by
  intro shapes
  induction shapes with
  | nil => intro gv gi s' hs'; simp [bakeAll] at hs'
  | cons s rest ih =>
    intro gv gi s' hs'
    rw [bakeAll_cons] at hs'
    simp only [List.mem_cons] at hs'
    rcases hs' with rfl | hs'
    · exact ⟨s, List.mem_cons_self s rest, gi.length, bakeShape_snd_snd gv gi s⟩
    · obtain ⟨s0, hs0, off, heq⟩ := ih (bakeShape gv gi s).1 (bakeShape gv gi s).2.1 s' hs'
      exact ⟨s0, List.mem_cons_of_mem s hs0, off, heq⟩

theorem getD_append_left {α : Type} (l₁ l₂ : List α) (n : Nat) (d : α)
    (h : n < l₁.length) : (l₁ ++ l₂).getD n d = l₁.getD n d := by
  rw [List.getD_eq_getElem _ _ (by simp only [List.length_append]; omega),
    List.getD_eq_getElem _ _ h]
  exact List.getElem_append_left h

theorem getD_append_at {α : Type} (l₁ l₂ : List α) (n : Nat) (d : α)
    (h : n < l₂.length) : (l₁ ++ l₂).getD (l₁.length + n) d = l₂.getD n d := by
  rw [List.getD_eq_getElem _ _ (by simp only [List.length_append]; omega),
    List.getD_eq_getElem _ _ h]
  rw [List.getElem_append_right] <;> simp [h]

theorem getD_map_add (l : List Nat) (k n : Nat) (h : n < l.length) :
    (l.map (· + k)).getD n 0 = l.getD n 0 + k := by
  rw [List.getD_eq_getElem _ _ (by simpa), List.getD_eq_getElem _ _ h]
  simp

theorem getD_mem_of_lt {α : Type} (l : List α) (n : Nat) (d : α) (h : n < l.length) :
    l.getD n d ∈ l := by
  rw [List.getD_eq_getElem _ _ h]
  exact List.getElem_mem h

theorem dedup_block_safe (attrs : List EGXAttribute) (vs : List ModernVertex)
    (gv tv : List ModernVertex) (gi ti : List Nat) (i j : Nat)
    (hi1 : gi.length ≤ i) (hi2 : i < gi.length + (dedup attrs vs).2.length)
    (hj1 : gi.length ≤ j) (hj2 : j < gi.length + (dedup attrs vs).2.length)
    (hne : ((gi ++ (dedup attrs vs).2.map (· + gv.length)) ++ ti).getD i 0 ≠
           ((gi ++ (dedup attrs vs).2.map (· + gv.length)) ++ ti).getD j 0) :
    vertexEqOn attrs
      (((gv ++ (dedup attrs vs).1) ++ tv).getD
        (((gi ++ (dedup attrs vs).2.map (· + gv.length)) ++ ti).getD i 0) defaultVertex)
      (((gv ++ (dedup attrs vs).1) ++ tv).getD
        (((gi ++ (dedup attrs vs).2.map (· + gv.length)) ++ ti).getD j 0) defaultVertex)
      = false := by
  have hGI : ∀ m, gi.length ≤ m → m < gi.length + (dedup attrs vs).2.length →
      ((gi ++ (dedup attrs vs).2.map (· + gv.length)) ++ ti).getD m 0 =
        (dedup attrs vs).2.getD (m - gi.length) 0 + gv.length := by
    intro m hm1 hm2
    have hmlt : m - gi.length < (dedup attrs vs).2.length := by omega
    rw [getD_append_left _ _ _ _
      (by simp only [List.length_append, List.length_map]; omega)]
    have hm : m = gi.length + (m - gi.length) := by omega
    rw [hm, getD_append_at _ _ _ _ (by simpa), getD_map_add _ _ _ hmlt]
    have hc : gi.length + (m - gi.length) - gi.length = m - gi.length := by omega
    rw [hc]
  have hGV : ∀ a, a < (dedup attrs vs).1.length →
      ((gv ++ (dedup attrs vs).1) ++ tv).getD (a + gv.length) defaultVertex =
        (dedup attrs vs).1.getD a defaultVertex := by
    intro a ha
    rw [Nat.add_comm a gv.length]
    rw [getD_append_left _ _ _ _ (by simp only [List.length_append]; omega)]
    exact getD_append_at gv _ a defaultVertex ha
  have hai : (dedup attrs vs).2.getD (i - gi.length) 0 < (dedup attrs vs).1.length :=
    dedup_snd_lt attrs vs _ (getD_mem_of_lt _ _ _ (by omega))
  have haj : (dedup attrs vs).2.getD (j - gi.length) 0 < (dedup attrs vs).1.length :=
    dedup_snd_lt attrs vs _ (getD_mem_of_lt _ _ _ (by omega))
  rw [hGI i hi1 hi2, hGI j hj1 hj2] at hne ⊢
  rw [hGV _ hai, hGV _ haj]
  have hab : (dedup attrs vs).2.getD (i - gi.length) 0 ≠
      (dedup attrs vs).2.getD (j - gi.length) 0 := by
    intro hcon
    exact hne (by rw [hcon])
  have hp := dedup_pairwise attrs vs
  rw [List.getD_eq_get _ _ hai, List.getD_eq_get _ _ haj]
  rcases Nat.lt_or_ge ((dedup attrs vs).2.getD (i - gi.length) 0)
      ((dedup attrs vs).2.getD (j - gi.length) 0) with hlt | hge
  · exact List.pairwise_iff_get.mp hp ⟨_, hai⟩ ⟨_, haj⟩ hlt
  · have hlt : (dedup attrs vs).2.getD (j - gi.length) 0 <
        (dedup attrs vs).2.getD (i - gi.length) 0 := by omega
    rw [vertexEqOn_comm]
    exact List.pairwise_iff_get.mp hp ⟨_, haj⟩ ⟨_, hai⟩ hlt

theorem bakeAll_dedup :
    ∀ (shapes : List GXShape) (gv : List ModernVertex) (gi : List Nat),
      ∀ s' ∈ (bakeAll shapes gv gi).2.2, ∀ i j,
        s'.mFirstVertexOffset ≤ i → i < s'.mFirstVertexOffset + s'.mVertexCount →
        s'.mFirstVertexOffset ≤ j → j < s'.mFirstVertexOffset + s'.mVertexCount →
        (bakeAll shapes gv gi).2.1.getD i 0 ≠ (bakeAll shapes gv gi).2.1.getD j 0 →
        vertexEqOn s'.mVertexAttributeTable
          ((bakeAll shapes gv gi).1.getD ((bakeAll shapes gv gi).2.1.getD i 0) defaultVertex)
          ((bakeAll shapes gv gi).1.getD ((bakeAll shapes gv gi).2.1.getD j 0) defaultVertex)
          = false := by
  intro shapes
  induction shapes with
  | nil => intro gv gi s' hs'; simp [bakeAll] at hs'
  | cons s rest ih =>
    intro gv gi s' hs' i j hi1 hi2 hj1 hj2 hne
    rw [bakeAll_cons] at hs' hne ⊢
    simp only [List.mem_cons] at hs'
    obtain ⟨tv, ti, h1, h2⟩ := bakeAll_extends rest (bakeShape gv gi s).1 (bakeShape gv gi s).2.1
    rcases hs' with rfl | hs'
    · have e1 : (bakeAll rest (bakeShape gv gi s).1 (bakeShape gv gi s).2.1).1
          = (gv ++ (dedup s.mVertexAttributeTable (shapeTriVertices s)).1) ++ tv := by
        rw [h1, bakeShape_fst]
      have e2 : (bakeAll rest (bakeShape gv gi s).1 (bakeShape gv gi s).2.1).2.1
          = (gi ++ (dedup s.mVertexAttributeTable (shapeTriVertices s)).2.map
              (· + gv.length)) ++ ti := by
        rw [h2, bakeShape_snd_fst]
      rw [bakeShape_snd_snd] at hi1 hi2 hj1 hj2
      simp only [bakedShapeOf] at hi1 hi2 hj1 hj2
      rw [e2] at hne
      rw [e1, e2, bakeShape_snd_snd]
      simp only [bakedShapeOf]
      exact dedup_block_safe s.mVertexAttributeTable (shapeTriVertices s) gv tv gi ti i j
        hi1 hi2 hj1 hj2 hne
    · exact ih (bakeShape gv gi s).1 (bakeShape gv gi s).2.1 s' hs' i j hi1 hi2 hj1 hj2 hne

theorem stripTriangles_short (vs : List ModernVertex) (h : vs.length < 3) :
    stripTriangles vs = [] := by
  match vs with
  | [] => rfl
  | [a] => rfl
  | [a, b] => rfl
  | a :: b :: c :: rest => exact absurd h (by simp only [List.length_cons]; omega)

theorem fanTriangles_short (vs : List ModernVertex) (h : vs.length < 3) :
    fanTriangles vs = [] := by
  match vs with
  | [] => rfl
  | [a] => rfl
  | [a, b] => rfl
  | a :: b :: c :: rest => exact absurd h (by simp only [List.length_cons]; omega)

theorem triangulated_mod3 (p : GXPrimitive)
    (h : p.mType = EGXPrimitiveType.TriangleStrip ∨ p.mType = EGXPrimitiveType.TriangleFan ∨
      p.mVertices.length % 3 = 0) :
    (p.TriangluatePrimitive).mVertices.length % 3 = 0 := by
  obtain ⟨t, vs⟩ := p
  rcases h with h | h | h
  · simp only [GXPrimitive.mType] at h
    subst h
    show (flatTriangles (stripTriangles vs)).length % 3 = 0
    rw [flatTriangles_length]
    omega
  · simp only [GXPrimitive.mType] at h
    subst h
    show (flatTriangles (fanTriangles vs)).length % 3 = 0
    rw [flatTriangles_length]
    omega
  · simp only [GXPrimitive.mVertices] at h
    cases t <;>
      simp [GXPrimitive.TriangluatePrimitive, GXPrimitive.TriangulateTriangleStrip,
        GXPrimitive.TriangulateTriangleFan, flatTriangles_length] <;>
      omega

/-- A triangle list's triangle count: a primitive in triangle-list form has
one triangle per three vertices. -/
def primTriangleCount (p : GXPrimitive) : Nat :=
  p.mVertices.length / 3

/-- Total triangle count across a shape's primitives (meaningful once the
primitives are in triangle-list form). -/
def shapeTriangleCount (s : GXShape) : Nat :=
  (s.mPrimitives.map primTriangleCount).sum

theorem sum_eq_three_mul_div (l : List Nat) (h : ∀ x ∈ l, x % 3 = 0) :
    l.sum = 3 * (l.map (· / 3)).sum := by
  induction l with
  | nil => rfl
  | cons x rest ih =>
    simp only [List.sum_cons, List.map_cons]
    rw [ih fun y hy => h y (List.mem_cons_of_mem x hy)]
    have hx := h x (List.mem_cons_self x rest)
    omega

def wA : ModernVertex := { defaultVertex with position := ⟨1, 0, 0⟩ }

def wB : ModernVertex := { defaultVertex with position := ⟨2, 0, 0⟩ }

def wC : ModernVertex := { defaultVertex with position := ⟨3, 0, 0⟩ }

def wD : ModernVertex := { defaultVertex with position := ⟨4, 0, 0⟩ }

/-- C1: for every `TriangleStrip` primitive with `n ≥ 3` vertices,
triangulation rewrites it into exactly `n-2` triangles, triangle `i`
(0-based, over source vertices `i, i+1, i+2`) being
`(v[i], v[i+1], v[i+2])` for even `i` and `(v[i+1], v[i], v[i+2])` for odd
`i`; in particular `[A,B,C,D]` yields exactly `[(A,B,C), (C,B,D)]`. -/
theorem strip_triangulation_correct :
    (∀ vs : List ModernVertex,
      ((GXPrimitive.mk EGXPrimitiveType.TriangleStrip vs).TriangluatePrimitive).mVertices =
        flatTriangles (stripTriangles vs)) ∧
    (∀ vs : List ModernVertex, 3 ≤ vs.length →
      (stripTriangles vs).length = vs.length - 2 ∧
      ∀ i, i < vs.length - 2 →
        (stripTriangles vs).getD i defaultTriangle =
          if i % 2 = 0 then
            (vs.getD i defaultVertex, vs.getD (i + 1) defaultVertex,
              vs.getD (i + 2) defaultVertex)
          else
            (vs.getD (i + 1) defaultVertex, vs.getD i defaultVertex,
              vs.getD (i + 2) defaultVertex)) ∧
    (∀ A B C D : ModernVertex, stripTriangles [A, B, C, D] = [(A, B, C), (C, B, D)]) := by
  refine ⟨fun vs => rfl, fun vs _h => ⟨stripTrianglesAux_length vs 0, fun i hi => ?_⟩,
    fun A B C D => ?_⟩
  · have := stripTrianglesAux_getD vs 0 i hi
    simpa using this
  · simp [stripTriangles, stripTrianglesAux]

theorem strip_triangulation_correct_witness :
    (stripTriangles [wA, wB, wC, wD]).length = ([wA, wB, wC, wD] : List ModernVertex).length - 2 ∧
    (stripTriangles [wA, wB, wC, wD]).getD 1 defaultTriangle =
      (if 1 % 2 = 0 then
        (([wA, wB, wC, wD] : List ModernVertex).getD 1 defaultVertex,
          ([wA, wB, wC, wD] : List ModernVertex).getD 2 defaultVertex,
          ([wA, wB, wC, wD] : List ModernVertex).getD 3 defaultVertex)
      else
        (([wA, wB, wC, wD] : List ModernVertex).getD 2 defaultVertex,
          ([wA, wB, wC, wD] : List ModernVertex).getD 1 defaultVertex,
          ([wA, wB, wC, wD] : List ModernVertex).getD 3 defaultVertex)) ∧
    stripTriangles [wA, wB, wC, wD] = [(wA, wB, wC), (wC, wB, wD)] :=
  ⟨(strip_triangulation_correct.2.1 [wA, wB, wC, wD] (by decide)).1,
   (strip_triangulation_correct.2.1 [wA, wB, wC, wD] (by decide)).2 1 (by decide),
   strip_triangulation_correct.2.2 wA wB wC wD⟩

/-- C2: for every `TriangleFan` primitive with `n ≥ 3` vertices,
triangulation rewrites it into exactly `n-2` triangles each sharing the
first vertex as hub, `(v[0], v[i], v[i+1])` for `i` from 1 to `n-2`; in
particular `[A,B,C,D]` yields exactly `[(A,B,C), (A,C,D)]`. -/
theorem fan_triangulation_correct :
    (∀ vs : List ModernVertex,
      ((GXPrimitive.mk EGXPrimitiveType.TriangleFan vs).TriangluatePrimitive).mVertices =
        flatTriangles (fanTriangles vs)) ∧
    (∀ vs : List ModernVertex, 3 ≤ vs.length →
      (fanTriangles vs).length = vs.length - 2 ∧
      ∀ i, i < vs.length - 2 →
        (fanTriangles vs).getD i defaultTriangle =
          (vs.getD 0 defaultVertex, vs.getD (i + 1) defaultVertex,
            vs.getD (i + 2) defaultVertex)) ∧
    (∀ A B C D : ModernVertex, fanTriangles [A, B, C, D] = [(A, B, C), (A, C, D)]) := by
  refine ⟨fun vs => rfl, fun vs h => ?_, fun A B C D => rfl⟩
  match vs with
  | [] => simp at h
  | hub :: rest =>
    constructor
    · show (fanTrianglesAux hub rest).length = (hub :: rest).length - 2
      rw [fanTrianglesAux_length]
      simp
    · intro i hi
      have hi' : i < rest.length - 1 := by simp at hi; omega
      show (fanTrianglesAux hub rest).getD i defaultTriangle = _
      rw [fanTrianglesAux_getD hub rest i hi']
      simp [List.getD_cons_succ]

theorem fan_triangulation_correct_witness :
    (fanTriangles [wA, wB, wC, wD]).length = ([wA, wB, wC, wD] : List ModernVertex).length - 2 ∧
    (fanTriangles [wA, wB, wC, wD]).getD 1 defaultTriangle =
      (([wA, wB, wC, wD] : List ModernVertex).getD 0 defaultVertex,
        ([wA, wB, wC, wD] : List ModernVertex).getD 2 defaultVertex,
        ([wA, wB, wC, wD] : List ModernVertex).getD 3 defaultVertex) ∧
    fanTriangles [wA, wB, wC, wD] = [(wA, wB, wC), (wA, wC, wD)] :=
  ⟨(fan_triangulation_correct.2.1 [wA, wB, wC, wD] (by decide)).1,
   (fan_triangulation_correct.2.1 [wA, wB, wC, wD] (by decide)).2 1 (by decide),
   fan_triangulation_correct.2.2 wA wB wC wD⟩

/-- C7: for every `TriangleStrip` or `TriangleFan` primitive with fewer
than 3 vertices, triangulation produces an empty triangle list (zero
triangles) and does not fail. -/
theorem small_primitive_triangulates_empty :
    (∀ vs : List ModernVertex, vs.length < 3 →
      stripTriangles vs = [] ∧ fanTriangles vs = []) ∧
    (∀ p : GXPrimitive,
      (p.mType = EGXPrimitiveType.TriangleStrip ∨ p.mType = EGXPrimitiveType.TriangleFan) →
      p.mVertices.length < 3 → (p.TriangluatePrimitive).mVertices = []) := by
  refine ⟨fun vs h => ⟨stripTriangles_short vs h, fanTriangles_short vs h⟩, fun p ht hn => ?_⟩
  obtain ⟨t, vs⟩ := p
  simp only [GXPrimitive.mType] at ht
  simp only [GXPrimitive.mVertices] at hn
  rcases ht with rfl | rfl
  · show flatTriangles (stripTriangles vs) = []
    rw [stripTriangles_short vs hn]
    rfl
  · show flatTriangles (fanTriangles vs) = []
    rw [fanTriangles_short vs hn]
    rfl

theorem small_primitive_triangulates_empty_witness :
    (stripTriangles [wA, wB] = [] ∧ fanTriangles [wA, wB] = []) ∧
    ((GXPrimitive.mk EGXPrimitiveType.TriangleStrip [wA, wB]).TriangluatePrimitive).mVertices
      = [] :=
  ⟨small_primitive_triangulates_empty.1 [wA, wB] (by decide),
   small_primitive_triangulates_empty.2 (GXPrimitive.mk EGXPrimitiveType.TriangleStrip [wA, wB])
     (Or.inl rfl) (by decide)⟩

/-- C6 (amended): after `TriangluatePrimitive` the primitive's type is
always `Triangles`; and its vertex count is divisible by 3 provided the
original type was `TriangleStrip` or `TriangleFan`, or the original vertex
count was already divisible by 3 (the `Triangles` case and the
spec's open unsupported-type cases leave the vertices unchanged, so a
vertex count that is not a multiple of 3 survives triangulation). -/
theorem triangulate_invariant (p : GXPrimitive) :
    (p.TriangluatePrimitive).mType = EGXPrimitiveType.Triangles ∧
    ((p.mType = EGXPrimitiveType.TriangleStrip ∨ p.mType = EGXPrimitiveType.TriangleFan ∨
        p.mVertices.length % 3 = 0) →
      (p.TriangluatePrimitive).mVertices.length % 3 = 0) := by
  constructor
  · obtain ⟨t, vs⟩ := p
    cases t <;> rfl
  · exact triangulated_mod3 p

theorem triangulate_invariant_witness :
    ((GXPrimitive.mk EGXPrimitiveType.TriangleStrip [wA, wB, wC, wD]).TriangluatePrimitive).mType
      = EGXPrimitiveType.Triangles ∧
    ((GXPrimitive.mk EGXPrimitiveType.TriangleStrip
        [wA, wB, wC, wD]).TriangluatePrimitive).mVertices.length % 3 = 0 :=
  ⟨(triangulate_invariant _).1, (triangulate_invariant _).2 (Or.inl rfl)⟩

theorem triangulate_invariant_cex :
    ¬ (((GXPrimitive.mk EGXPrimitiveType.Triangles [defaultVertex]).TriangluatePrimitive).mType
          = EGXPrimitiveType.Triangles ∧
        ((GXPrimitive.mk EGXPrimitiveType.Triangles
            [defaultVertex]).TriangluatePrimitive).mVertices.length % 3 = 0) := by
  decide

theorem bakedShape_count (s : GXShape)
    (h : ∀ p ∈ s.mPrimitives, p.mType = EGXPrimitiveType.TriangleStrip ∨
        p.mType = EGXPrimitiveType.TriangleFan ∨ p.mVertices.length % 3 = 0) (off : Nat) :
    (bakedShapeOf s off).mVertexCount = 3 * shapeTriangleCount (bakedShapeOf s off) := by
  have hcnt : (bakedShapeOf s off).mVertexCount = (shapeTriVertices s).length := by
    simp [bakedShapeOf, dedup_snd_length]
  have hlen : (shapeTriVertices s).length =
      (s.mPrimitives.map fun p => (p.TriangluatePrimitive).mVertices.length).sum := by
    simp only [shapeTriVertices, List.length_flatten, List.map_map]
    rfl
  have hstc : shapeTriangleCount (bakedShapeOf s off) =
      (s.mPrimitives.map fun p => (p.TriangluatePrimitive).mVertices.length / 3).sum := by
    simp only [shapeTriangleCount, bakedShapeOf, List.map_map]
    rfl
  rw [hcnt, hlen, hstc]
  rw [sum_eq_three_mul_div (s.mPrimitives.map fun p => (p.TriangluatePrimitive).mVertices.length)
    ?side]
  case side =>
    intro x hx
    rw [List.mem_map] at hx
    obtain ⟨p, hp, rfl⟩ := hx
    exact triangulated_mod3 p (h p hp)
  simp only [List.map_map]
  rfl

/-- Geometry used by the bake witnesses: two shapes over the position
attribute, one strip primitive and one fan primitive. -/
def witnessGeometry : GXGeometry :=
  ⟨[{ defaultGXShape with
        mVertexAttributeTable := [EGXAttribute.Position]
        mPrimitives := [⟨EGXPrimitiveType.TriangleStrip, [wA, wB, wC, wD]⟩] },
    { defaultGXShape with
        mVertexAttributeTable := [EGXAttribute.Position]
        mPrimitives := [⟨EGXPrimitiveType.TriangleFan, [wA, wB, wC, wD]⟩] }], [], []⟩

/-- C3 (amended): after the bake, for every shape of a geometry all of
whose primitives are triangle strips, triangle fans, or already have a
vertex count divisible by 3, the recorded `indexCount` equals 3 times the
total triangle count across that shape's primitives post-triangulation, and
`firstIndexOffset + indexCount` is at most the global index buffer length.
(The divisibility proviso is forced: a `Triangles`-typed primitive passes
through triangulation unchanged, so a malformed one with, say, 4 vertices
contributes 4 indices but only ⌊4/3⌋ = 1 whole triangle.) -/
theorem bake_offset_count_correct (g : GXGeometry)
    (hwf : ∀ s ∈ g.mShapes, ∀ p ∈ s.mPrimitives,
        p.mType = EGXPrimitiveType.TriangleStrip ∨ p.mType = EGXPrimitiveType.TriangleFan ∨
          p.mVertices.length % 3 = 0)
    (k : Nat) (hk : k < (g.CreateVertexArray).mShapes.length) :
    ((g.CreateVertexArray).mShapes.getD k defaultGXShape).mVertexCount =
      3 * shapeTriangleCount ((g.CreateVertexArray).mShapes.getD k defaultGXShape) ∧
    ((g.CreateVertexArray).mShapes.getD k defaultGXShape).mFirstVertexOffset +
        ((g.CreateVertexArray).mShapes.getD k defaultGXShape).mVertexCount ≤
      (g.CreateVertexArray).mModelIndices.length := by
  have hmem : (g.CreateVertexArray).mShapes.getD k defaultGXShape ∈
      (bakeAll g.mShapes g.mModelVertices g.mModelIndices).2.2 :=
    getD_mem_of_lt _ _ _ hk
  constructor
  · obtain ⟨s, hs, off, heq⟩ :=
      bakeAll_mem_src g.mShapes g.mModelVertices g.mModelIndices _ hmem
    rw [heq]
    exact bakedShape_count s (hwf s hs) off
  · exact (bakeAll_bounds g.mShapes g.mModelVertices g.mModelIndices _ hmem).2

theorem bake_offset_count_witness :
    ((witnessGeometry.CreateVertexArray).mShapes.getD 0 defaultGXShape).mVertexCount =
      3 * shapeTriangleCount ((witnessGeometry.CreateVertexArray).mShapes.getD 0 defaultGXShape) ∧
    ((witnessGeometry.CreateVertexArray).mShapes.getD 0 defaultGXShape).mFirstVertexOffset +
        ((witnessGeometry.CreateVertexArray).mShapes.getD 0 defaultGXShape).mVertexCount ≤
      (witnessGeometry.CreateVertexArray).mModelIndices.length :=
  bake_offset_count_correct witnessGeometry (by decide) 0 (by decide)

/-- C3 counterexample input: a geometry whose single shape holds a
`Triangles` primitive with 4 vertices. -/
def cexGeometry : GXGeometry :=
  ⟨[{ defaultGXShape with
        mVertexAttributeTable := [EGXAttribute.Position]
        mPrimitives := [⟨EGXPrimitiveType.Triangles, [wA, wB, wC, wD]⟩] }], [], []⟩

theorem bake_offset_count_cex :
    ¬ (((cexGeometry.CreateVertexArray).mShapes.getD 0 defaultGXShape).mVertexCount =
        3 * shapeTriangleCount
          ((cexGeometry.CreateVertexArray).mShapes.getD 0 defaultGXShape)) := by
  decide

/-- C4: after the bake, within any one shape's baked index range
`[firstIndexOffset, firstIndexOffset + indexCount)`, any two positions
referencing distinct global-vertex entries reference entries that are not
value-equal over that shape's active attribute set. -/
theorem bake_dedup_correct (g : GXGeometry) (k : Nat)
    (hk : k < (g.CreateVertexArray).mShapes.length) (i j : Nat)
    (hi1 : ((g.CreateVertexArray).mShapes.getD k defaultGXShape).mFirstVertexOffset ≤ i)
    (hi2 : i < ((g.CreateVertexArray).mShapes.getD k defaultGXShape).mFirstVertexOffset +
        ((g.CreateVertexArray).mShapes.getD k defaultGXShape).mVertexCount)
    (hj1 : ((g.CreateVertexArray).mShapes.getD k defaultGXShape).mFirstVertexOffset ≤ j)
    (hj2 : j < ((g.CreateVertexArray).mShapes.getD k defaultGXShape).mFirstVertexOffset +
        ((g.CreateVertexArray).mShapes.getD k defaultGXShape).mVertexCount)
    (hne : (g.CreateVertexArray).mModelIndices.getD i 0 ≠
        (g.CreateVertexArray).mModelIndices.getD j 0) :
    vertexEqOn ((g.CreateVertexArray).mShapes.getD k defaultGXShape).mVertexAttributeTable
      ((g.CreateVertexArray).mModelVertices.getD
        ((g.CreateVertexArray).mModelIndices.getD i 0) defaultVertex)
      ((g.CreateVertexArray).mModelVertices.getD
        ((g.CreateVertexArray).mModelIndices.getD j 0) defaultVertex) = false :=
  bakeAll_dedup g.mShapes g.mModelVertices g.mModelIndices _
    (getD_mem_of_lt _ _ _ hk) i j hi1 hi2 hj1 hj2 hne

theorem bake_dedup_correct_witness :
    vertexEqOn
      ((witnessGeometry.CreateVertexArray).mShapes.getD 0 defaultGXShape).mVertexAttributeTable
      ((witnessGeometry.CreateVertexArray).mModelVertices.getD
        ((witnessGeometry.CreateVertexArray).mModelIndices.getD 0 0) defaultVertex)
      ((witnessGeometry.CreateVertexArray).mModelVertices.getD
        ((witnessGeometry.CreateVertexArray).mModelIndices.getD 1 0) defaultVertex) = false :=
  bake_dedup_correct witnessGeometry 0 (by decide) 0 1 (by decide) (by decide) (by decide)
    (by decide) (by decide)

/-- C5: after the bake, the shapes' recorded index ranges appear in
non-decreasing offset order matching shape list order, and are pairwise
non-overlapping (an earlier shape's range ends no later than a later
shape's range begins). -/
theorem bake_ranges_ordered (g : GXGeometry) (i j : Nat) (hij : i < j)
    (hj : j < (g.CreateVertexArray).mShapes.length) :
    ((g.CreateVertexArray).mShapes.getD i defaultGXShape).mFirstVertexOffset ≤
      ((g.CreateVertexArray).mShapes.getD j defaultGXShape).mFirstVertexOffset ∧
    ((g.CreateVertexArray).mShapes.getD i defaultGXShape).mFirstVertexOffset +
        ((g.CreateVertexArray).mShapes.getD i defaultGXShape).mVertexCount ≤
      ((g.CreateVertexArray).mShapes.getD j defaultGXShape).mFirstVertexOffset := by
  have hi : i < (g.CreateVertexArray).mShapes.length := lt_trans hij hj
  have hp := bakeAll_pairwise g.mShapes g.mModelVertices g.mModelIndices
  have h := List.pairwise_iff_get.mp hp ⟨i, hi⟩ ⟨j, hj⟩ hij
  rw [List.getD_eq_get _ _ hi, List.getD_eq_get _ _ hj]
  exact ⟨le_trans (Nat.le_add_right _ _) h, h⟩

theorem bake_ranges_ordered_witness :
    ((witnessGeometry.CreateVertexArray).mShapes.getD 0 defaultGXShape).mFirstVertexOffset ≤
      ((witnessGeometry.CreateVertexArray).mShapes.getD 1 defaultGXShape).mFirstVertexOffset ∧
    ((witnessGeometry.CreateVertexArray).mShapes.getD 0 defaultGXShape).mFirstVertexOffset +
        ((witnessGeometry.CreateVertexArray).mShapes.getD 0 defaultGXShape).mVertexCount ≤
      ((witnessGeometry.CreateVertexArray).mShapes.getD 1 defaultGXShape).mFirstVertexOffset :=
  bake_ranges_ordered witnessGeometry 0 1 (by decide) (by decide)

/-- C8: after `CleanupVertexArray` the global vertex and index buffers are
empty and every shape's primitive collection is empty; calling it again
leaves the state unchanged (it is idempotent and does not fail). -/
theorem cleanup_clears_and_idempotent (g : GXGeometry) :
    (g.CleanupVertexArray).mModelVertices = [] ∧
    (g.CleanupVertexArray).mModelIndices = [] ∧
    (∀ k, ((g.CleanupVertexArray).mShapes.getD k defaultGXShape).mPrimitives = []) ∧
    (g.CleanupVertexArray).CleanupVertexArray = g.CleanupVertexArray := by
  refine ⟨rfl, rfl, fun k => ?_, ?_⟩
  · by_cases hk : k < (g.CleanupVertexArray).mShapes.length
    · rw [List.getD_eq_getElem _ _ hk]
      simp [GXGeometry.CleanupVertexArray]
    · rw [List.getD_eq_default _ _ (by omega)]
      rfl
  · have hff : ((fun s : GXShape => { s with mPrimitives := ([] : List GXPrimitive) }) ∘
        fun s : GXShape => { s with mPrimitives := ([] : List GXPrimitive) }) =
          fun s : GXShape => { s with mPrimitives := ([] : List GXPrimitive) } :=
      funext fun s => rfl
    simp [GXGeometry.CleanupVertexArray, List.map_map, hff]

/-- C9: `CalculateCenterOfMass` sets the center of mass to the exact
arithmetic mean of the position components of every vertex currently in the
shape's primitives; a single-vertex shape gets exactly that vertex's
position and an empty shape gets the zero vector (no division by zero). -/
theorem center_of_mass_correct (s : GXShape) :
    (s.allVertices = [] → (s.CalculateCenterOfMass).mCenterOfMass = Vec3.zero) ∧
    (∀ v, s.allVertices = [v] → (s.CalculateCenterOfMass).mCenterOfMass = v.position) ∧
    (s.allVertices ≠ [] →
      (s.CalculateCenterOfMass).mCenterOfMass =
        ⟨((s.allVertices.map ModernVertex.position).map Vec3.x).sum / (s.allVertices.length : ℚ),
         ((s.allVertices.map ModernVertex.position).map Vec3.y).sum / (s.allVertices.length : ℚ),
         ((s.allVertices.map ModernVertex.position).map Vec3.z).sum /
           (s.allVertices.length : ℚ)⟩) := by
  refine ⟨fun h => ?_, fun v h => ?_, fun h => ?_⟩
  · simp [GXShape.CalculateCenterOfMass, h]
  · simp [GXShape.CalculateCenterOfMass, h]
  · have hne : ¬((s.allVertices.map ModernVertex.position).length = 0) := by
      simp only [List.length_map, List.length_eq_zero]
      exact h
    simp [GXShape.CalculateCenterOfMass, hne, h]

/-- Shape used by the center-of-mass witness: a single vertex. -/
def witnessShapeCOM : GXShape :=
  { defaultGXShape with mPrimitives := [⟨EGXPrimitiveType.Triangles, [wA]⟩] }

theorem center_of_mass_correct_witness :
    (witnessShapeCOM.CalculateCenterOfMass).mCenterOfMass = wA.position :=
  (center_of_mass_correct witnessShapeCOM).2.1 wA (by decide)

/-- C10: a default-constructed shape starts visible, with zero
offset/count, a zero center of mass and a null user-data attachment, and is
not skipped by a renderer that skips only shapes with `visible == false`. -/
theorem default_shape_fields :
    defaultGXShape.mbIsVisible = true ∧
    defaultGXShape.mFirstVertexOffset = 0 ∧
    defaultGXShape.mVertexCount = 0 ∧
    defaultGXShape.mCenterOfMass = Vec3.zero ∧
    defaultGXShape.mUserData = none ∧
    rendererSkips defaultGXShape = false :=
  ⟨rfl, rfl, rfl, rfl, rfl, rfl⟩
